import Mathlib

/-!
# Verification of the smart dustbin backend

A shallow embedding of `run_dustbin_system.py`: the Firestore `users`
collection is modelled as an association list from document id (the account
uid) to a user record, whose `points` field is itself an association list
from field name to integer (Firestore number fields may be absent, and
`dict.get(k, 0)` semantics apply).  The Firebase identity service is an
association list from uid to email.  Each HTTP handler and the serial
ingestion path become pure functions returning a status code together with
the updated state.
-/

namespace SmartDustbin

/-- Embedding of Python `str.upper()` on the ASCII strings this system
exchanges (device ids and category labels). -/
def pyUpper (s : String) : String := ⟨s.data.map Char.toUpper⟩

/-- Embedding of Python `str.lower()` on ASCII strings. -/
def pyLower (s : String) : String := ⟨s.data.map Char.toLower⟩

/-- Characterwise splitting of a character list at a separator; the
workhorse of `pySplit`. -/
def splitChar (sep : Char) : List Char → List (List Char)
  | [] => [[]]
  | c :: rest =>
    match splitChar sep rest with
    | [] => [[]]
    | grp :: gs => if c = sep then [] :: grp :: gs else (c :: grp) :: gs

/-- Embedding of Python `str.split(sep)` for a one-character separator:
`"a,b"` gives `["a", "b"]`, `""` gives `[""]`, empty fields are kept. -/
def pySplit (s : String) (sep : Char) : List String :=
  (splitChar sep s.data).map (fun l => ⟨l⟩)

/-- First-match lookup in an association list, modelling both a Firestore
point read by document id and a Python `dict.get`. -/
def lookupKey {β : Type} : List (String × β) → String → Option β
  | [], _ => none
  | (k, v) :: rest, key => if k = key then some v else lookupKey rest key

/-- Apply `f` to the value stored under `key` (first occurrence only);
no-op when the key is absent. -/
def updateKey {β : Type} : List (String × β) → String → (β → β) → List (String × β)
  | [], _, _ => []
  | (k, v) :: rest, key, f => if k = key then (k, f v) :: rest else (k, v) :: updateKey rest key f

/-- Remove the entry stored under `key` (first occurrence only). -/
def eraseKey {β : Type} : List (String × β) → String → List (String × β)
  | [], _ => []
  | (k, v) :: rest, key => if k = key then rest else (k, v) :: eraseKey rest key

/-- The `points` map of a user document: Firestore number fields keyed by
name (`"dry"`, `"wet"`, `"ewaste"`, `"total"`); fields may be absent. -/
abbrev Points := List (String × Int)

/-- `points.get(k, 0)` — read a point field, defaulting to 0. -/
def pget (p : Points) (k : String) : Int := (lookupKey p k).getD 0

/-- Firestore `Increment(n)` applied to field `k`: adds to the stored value,
creating the field (as `n`) when absent. -/
def pinc : Points → String → Int → Points
  | [], k, n => [(k, n)]
  | (k', v) :: rest, k, n =>
    if k' = k then (k', v + n) :: rest else (k', v) :: pinc rest k n

/-- Firestore `update({k: n})`: overwrite field `k`, creating it when
absent. -/
def pset : Points → String → Int → Points
  | [], k, n => [(k, n)]
  | (k', v) :: rest, k, n =>
    if k' = k then (k', n) :: rest else (k', v) :: pset rest k n

/-- One document of the `users` collection. -/
structure UserRecord where
  email : String
  linked_dustbin : Option String
  points : Points
deriving DecidableEq, Repr

/-- The `users` collection: document id (account uid) to record. -/
abbrev Store := List (String × UserRecord)

/-- The identity service: account uid to email. -/
abbrev AuthDB := List (String × String)

/-- `db.collection('users').document(uid).get()`. -/
def findDoc (s : Store) (uid : String) : Option UserRecord := lookupKey s uid

/-- `document(uid).update(...)`: raises (returns `none`) when the document
does not exist, otherwise applies the field update. -/
def tryUpdateDoc (s : Store) (uid : String) (f : UserRecord → UserRecord) : Option Store :=
  match findDoc s uid with
  | some _ => some (updateKey s uid f)
  | none => none

/-- `users.where('linked_dustbin', '==', dustbin_id).limit(1)`: first
document whose link field equals the queried device id. -/
def findUserByDustbin (s : Store) (dustbin_id : String) : Option (String × UserRecord) :=
  s.find? (fun p => decide (p.2.linked_dustbin = some dustbin_id))

/-- The fixed category-to-points table of `update_points`. -/
def points_map : List (String × Int) := [("DRY", 5), ("WET", 8), ("EWASTE", 10)]

/-- `update_points(user_id, waste_type)`: look up the uppercased category in
the table (default 0), return unchanged on 0, else atomically increment the
lowercased category field by 1 and `points.total` by the table value.  A
datastore failure (missing document) is caught and logged. -/
def update_points (s : Store) (user_id waste_type : String) : Store :=
  let points := (lookupKey points_map (pyUpper waste_type)).getD 0
  if points = 0 then s
  else
    match tryUpdateDoc s user_id
        (fun r => { r with points := pinc (pinc r.points (pyLower waste_type) 1) "total" points }) with
    | some s' => s'
    | none => s

/-- `process_arduino_data(data)`: split on commas; anything other than
exactly two fields raises `ValueError`, which is caught (no-op).  On two
fields, resolve the device id to the first linked user and award points;
an unknown device is dropped silently. -/
def process_arduino_data (s : Store) (data : String) : Store :=
  match pySplit data ',' with
  | [dustbin_id, waste_type] =>
    match findUserByDustbin s dustbin_id with
    | some user_doc => update_points s user_doc.1 waste_type
    | none => s
  | _ => s

/-- The zeroed points object written for a freshly created user record. -/
def defaultPoints : Points := [("dry", 0), ("wet", 0), ("ewaste", 0), ("total", 0)]

/-- `GET /user/<uid>`: returns (status, returned record, datastore after).
If the document exists, recompute the total from the counters and repair
both the stored and the returned record when it disagrees.  If the document
is missing but the identity exists, create a zeroed record.  Any failure
(unknown identity) yields 404. -/
def get_user (authdb : AuthDB) (s : Store) (uid : String) : Nat × Option UserRecord × Store :=
  match findDoc s uid with
  | some user_data =>
    let dry_count := pget user_data.points "dry"
    let wet_count := pget user_data.points "wet"
    let ewaste_count := pget user_data.points "ewaste"
    let calculated_total := dry_count * 5 + wet_count * 8 + ewaste_count * 10
    let stored_total := pget user_data.points "total"
    if calculated_total ≠ stored_total then
      (200, some { user_data with points := pset user_data.points "total" calculated_total },
        updateKey s uid (fun r => { r with points := pset r.points "total" calculated_total }))
    else
      (200, some user_data, s)
  | none =>
    match lookupKey authdb uid with
    | some email =>
      let user_data : UserRecord := { email := email, linked_dustbin := none, points := defaultPoints }
      (200, some user_data, s ++ [(uid, user_data)])
    | none => (404, none, s)

/-- `DELETE /user/<uid>`: delete the identity first; `UserNotFoundError`
yields 404 before any datastore access, otherwise the document is deleted
too.  Returns (status, identity service after, datastore after). -/
def delete_user (authdb : AuthDB) (s : Store) (uid : String) : Nat × AuthDB × Store :=
  match lookupKey authdb uid with
  | some _ => (200, eraseKey authdb uid, eraseKey s uid)
  | none => (404, authdb, s)

/-- `POST /link_dustbin`: 400 on a missing (falsy) uid or device id;
409 when the first document already linked to the device belongs to a
different uid; otherwise write the link (500 if the target document is
missing). -/
def link_dustbin (s : Store) (uid dustbin_id : String) : Nat × Store :=
  if uid = "" ∨ dustbin_id = "" then (400, s)
  else
    match findUserByDustbin s dustbin_id with
    | some linked_doc =>
      if linked_doc.1 ≠ uid then (409, s)
      else
        match tryUpdateDoc s uid (fun r => { r with linked_dustbin := some dustbin_id }) with
        | some s' => (200, s')
        | none => (500, s)
    | none =>
      match tryUpdateDoc s uid (fun r => { r with linked_dustbin := some dustbin_id }) with
      | some s' => (200, s')
      | none => (500, s)

/-- `POST /unlink_dustbin`: 400 on a missing uid, else unconditionally set
`linked_dustbin` to null (500 if the document is missing). -/
def unlink_dustbin (s : Store) (uid : String) : Nat × Store :=
  if uid = "" then (400, s)
  else
    match tryUpdateDoc s uid (fun r => { r with linked_dustbin := none }) with
    | some s' => (200, s')
    | none => (500, s)

/-- The leaderboard query order: `order_by('points.total', DESCENDING)`. -/
def lbLE (p q : String × UserRecord) : Bool :=
  decide (pget q.2.points "total" ≤ pget p.2.points "total")

/-- Insert into a list sorted by `le` (insertion step of the sort that
models the datastore's ordered query). -/
def insertSorted {α : Type} (le : α → α → Bool) (a : α) : List α → List α
  | [] => [a]
  | b :: t => if le a b then a :: b :: t else b :: insertSorted le a t

/-- Sort by `le` (insertion sort); models the ordered query result. -/
def sortBySorted {α : Type} (le : α → α → Bool) : List α → List α
  | [] => []
  | a :: t => insertSorted le a (sortBySorted le t)

/-- `GET /leaderboard`: documents sorted by descending `points.total`,
truncated to 10, each projected to (email, total points). -/
def leaderboard (s : Store) : List (String × Int) :=
  ((sortBySorted lbLE s).take 10).map (fun p => (p.2.email, pget p.2.points "total"))

/-- `auth.get_user_by_email(email)`. -/
def get_user_by_email (authdb : AuthDB) (email : String) : Option String :=
  (authdb.find? (fun p => decide (p.2 = email))).map (fun p => p.1)

/-- `POST /login`: the handler reads only `data['email']`; the submitted
password is part of the request but never consulted.  200 with the uid when
the email resolves, 404 otherwise. -/
def login (authdb : AuthDB) (email password : String) : Nat × Option String :=
  match get_user_by_email authdb email with
  | some uid => (200, some uid)
  | none => (404, none)

/-! ## Association-list lemmas -/

theorem lookupKey_updateKey_self {β : Type} (l : List (String × β)) (key : String)
    (f : β → β) : lookupKey (updateKey l key f) key = (lookupKey l key).map f := by
  induction l with
  | nil => rfl
  | cons hd tl ih =>
    obtain ⟨k, v⟩ := hd
    by_cases hk : k = key
    · simp [updateKey, lookupKey, hk]
    · simp [updateKey, lookupKey, hk, ih]

theorem lookupKey_updateKey_ne {β : Type} (l : List (String × β)) (key key' : String)
    (f : β → β) (h : key' ≠ key) :
    lookupKey (updateKey l key f) key' = lookupKey l key' := by
  induction l with
  | nil => rfl
  | cons hd tl ih =>
    obtain ⟨k, v⟩ := hd
    by_cases hk : k = key
    · have hne2 : key ≠ key' := fun hh => h hh.symm
      simp [updateKey, lookupKey, hk, hne2]
    · by_cases hk' : k = key'
      · simp [updateKey, lookupKey, hk, hk', h]
      · simp [updateKey, lookupKey, hk, hk', ih]

theorem updateKey_eq_self {β : Type} (l : List (String × β)) (key : String)
    (f : β → β) (v : β) (hv : lookupKey l key = some v) (hf : f v = v) :
    updateKey l key f = l := by
  induction l with
  | nil => simp [lookupKey] at hv
  | cons hd tl ih =>
    obtain ⟨k, w⟩ := hd
    by_cases hk : k = key
    · simp [lookupKey, hk] at hv
      subst hv
      simp [updateKey, hk, hf]
    · simp [lookupKey, hk] at hv
      simp [updateKey, hk, ih hv]

theorem mem_of_lookupKey {β : Type} (l : List (String × β)) (key : String) (v : β)
    (h : lookupKey l key = some v) : (key, v) ∈ l := by
  induction l with
  | nil => simp [lookupKey] at h
  | cons hd tl ih =>
    obtain ⟨k, w⟩ := hd
    by_cases hk : k = key
    · subst hk
      simp [lookupKey] at h
      subst h
      exact List.mem_cons_self _ _
    · simp [lookupKey, hk] at h
      exact List.mem_cons_of_mem _ (ih h)

theorem lookupKey_of_mem_nodup {β : Type} (l : List (String × β)) (key : String) (v : β)
    (hm : (key, v) ∈ l) (hnd : (l.map Prod.fst).Nodup) : lookupKey l key = some v := by
  induction l with
  | nil => simp at hm
  | cons hd tl ih =>
    obtain ⟨k, w⟩ := hd
    simp only [List.map_cons, List.nodup_cons] at hnd
    rcases List.mem_cons.mp hm with heq | hmem
    · have h1 : k = key := congrArg Prod.fst heq.symm
      have h2 : w = v := congrArg Prod.snd heq.symm
      simp [lookupKey, h1, h2]
    · have hk : k ≠ key := by
        intro hk
        subst hk
        exact hnd.1 (List.mem_map_of_mem Prod.fst hmem)
      simp [lookupKey, hk, ih hmem hnd.2]

theorem lookupKey_append_of_none {β : Type} (l m : List (String × β)) (key : String)
    (h : lookupKey l key = none) : lookupKey (l ++ m) key = lookupKey m key := by
  induction l with
  | nil => rfl
  | cons hd tl ih =>
    obtain ⟨k, w⟩ := hd
    by_cases hk : k = key
    · simp [lookupKey, hk] at h
    · simp [lookupKey, hk] at h ⊢
      exact ih h

theorem find?_eq_of_unique {α : Type} (l : List α) (p : α → Bool) (x : α)
    (hm : x ∈ l) (hx : p x = true) (huniq : ∀ y ∈ l, p y = true → y = x) :
    l.find? p = some x := by
  induction l with
  | nil => simp at hm
  | cons a t ih =>
    by_cases ha : p a = true
    · have : a = x := huniq a (List.mem_cons_self a t) ha
      subst this
      simp [List.find?, ha]
    · have hax : x ≠ a := fun h => ha (h ▸ hx)
      have hmt : x ∈ t := by
        rcases List.mem_cons.mp hm with h | h
        · exact absurd h hax
        · exact h
      have := ih hmt (fun y hy hpy => huniq y (List.mem_cons_of_mem a hy) hpy)
      simpa [List.find?, ha] using this

/-! ## Point-field lemmas -/

theorem pget_pset_self (p : Points) (k : String) (n : Int) : pget (pset p k n) k = n := by
  induction p with
  | nil => simp [pset, pget, lookupKey]
  | cons hd tl ih =>
    obtain ⟨k', v⟩ := hd
    by_cases hk : k' = k
    · simp [pset, pget, lookupKey, hk]
    · simp only [pset, pget, lookupKey, if_neg hk] at ih ⊢
      exact ih

theorem pget_pset_ne (p : Points) (k k' : String) (n : Int) (h : k' ≠ k) :
    pget (pset p k n) k' = pget p k' := by
  have hkk : k ≠ k' := fun hh => h hh.symm
  induction p with
  | nil => simp [pset, pget, lookupKey, hkk]
  | cons hd tl ih =>
    obtain ⟨k₀, v⟩ := hd
    by_cases hk : k₀ = k
    · simp [pset, pget, lookupKey, hk, hkk]
    · by_cases hk' : k₀ = k'
      · simp [pset, pget, lookupKey, hk, hk', hkk, h]
      · simp only [pset, pget, lookupKey, if_neg hk, if_neg hk'] at ih ⊢
        exact ih

theorem pget_pinc_self (p : Points) (k : String) (n : Int) :
    pget (pinc p k n) k = pget p k + n := by
  induction p with
  | nil => simp [pinc, pget, lookupKey]
  | cons hd tl ih =>
    obtain ⟨k', v⟩ := hd
    by_cases hk : k' = k
    · simp [pinc, pget, lookupKey, hk]
    · simp only [pinc, pget, lookupKey, if_neg hk] at ih ⊢
      exact ih

theorem pget_pinc_ne (p : Points) (k k' : String) (n : Int) (h : k' ≠ k) :
    pget (pinc p k n) k' = pget p k' := by
  have hkk : k ≠ k' := fun hh => h hh.symm
  induction p with
  | nil => simp [pinc, pget, lookupKey, hkk]
  | cons hd tl ih =>
    obtain ⟨k₀, v⟩ := hd
    by_cases hk : k₀ = k
    · simp [pinc, pget, lookupKey, hk, hkk]
    · by_cases hk' : k₀ = k'
      · simp [pinc, pget, lookupKey, hk, hk', hkk, h]
      · simp only [pinc, pget, lookupKey, if_neg hk, if_neg hk'] at ih ⊢
        exact ih

/-! ## ASCII case lemmas

`str.upper`/`str.lower` act characterwise; for the letters occurring in the
category table, a character whose uppercase form is a given capital letter
has the matching small letter as its lowercase form. -/

theorem char_lower_of_upper (c u : Char) (hu1 : 65 ≤ u.toNat) (hu2 : u.toNat ≤ 90)
    (h : c.toUpper = u) : c.toLower = Char.ofNat (u.toNat + 32) := by
  by_cases hb : 97 ≤ c.toNat ∧ c.toNat ≤ 122
  · obtain ⟨h1, h2⟩ := hb
    have hc : c = Char.ofNat c.toNat := (Char.ofNat_toNat c).symm
    obtain ⟨n, hn⟩ : ∃ n, c.toNat = n := ⟨_, rfl⟩
    rw [hn] at h1 h2 hc
    rw [hc] at h ⊢
    interval_cases n <;> (subst h; decide)
  · have hup : c.toUpper = c := by
      simp only [Char.toUpper]
      rw [if_neg hb]
    rw [hup] at h
    subst h
    have hc : c = Char.ofNat c.toNat := (Char.ofNat_toNat c).symm
    obtain ⟨m, hm⟩ : ∃ m, c.toNat = m := ⟨_, rfl⟩
    rw [hm] at hu1 hu2 hc
    rw [hc]
    interval_cases m <;> decide

theorem map_lower_of_map_upper :
    ∀ (l u : List Char), l.map Char.toUpper = u →
      (∀ c ∈ u, 65 ≤ c.toNat ∧ c.toNat ≤ 90) →
      l.map Char.toLower = u.map (fun c => Char.ofNat (c.toNat + 32))
  | [], u, h, _ => by subst h; rfl
  | a :: t, u, h, hu => by
    subst h
    simp only [List.map_cons]
    have hua := hu a.toUpper (by simp)
    rw [char_lower_of_upper a a.toUpper hua.1 hua.2 rfl]
    rw [map_lower_of_map_upper t (t.map Char.toUpper) rfl
      (fun c hc => hu c (List.mem_cons_of_mem _ hc))]

/-- `s.upper() == t` for an all-capital `t` forces `s.lower()` to be the
letter-for-letter lowercase of `t`. -/
theorem pyLower_of_pyUpper (s t : String) (h : pyUpper s = t)
    (ht : ∀ c ∈ t.data, 65 ≤ c.toNat ∧ c.toNat ≤ 90) :
    pyLower s = ⟨t.data.map (fun c => Char.ofNat (c.toNat + 32))⟩ := by
  have hdata : s.data.map Char.toUpper = t.data := congrArg String.data h
  show (⟨s.data.map Char.toLower⟩ : String) = _
  rw [map_lower_of_map_upper s.data t.data hdata ht]

/-- A category label starting with a space is not a key of the points
table, whatever the rest of it uppercases to. -/
theorem points_map_head_space (cat : String) (h : cat.data.head? = some ' ') :
    lookupKey points_map (pyUpper cat) = none := by
  obtain ⟨l⟩ := cat
  cases l with
  | nil => simp at h
  | cons a t =>
    simp only [List.head?_cons, Option.some.injEq] at h
    subst h
    have hne : ∀ u : String, u.data.head? = some ' ' → False → True := fun _ _ _ => trivial
    have key : (pyUpper ⟨' ' :: t⟩).data = ' ' :: t.map Char.toUpper := by
      show (' ' :: t).map Char.toUpper = _
      simp only [List.map_cons]
      norm_num [show Char.toUpper ' ' = ' ' from by decide]
    simp only [points_map, lookupKey]
    have h1 : ¬("DRY" = pyUpper ⟨' ' :: t⟩) := by
      intro heq
      have := congrArg String.data heq
      rw [key] at this
      simp at this
    have h2 : ¬("WET" = pyUpper ⟨' ' :: t⟩) := by
      intro heq
      have := congrArg String.data heq
      rw [key] at this
      simp at this
    have h3 : ¬("EWASTE" = pyUpper ⟨' ' :: t⟩) := by
      intro heq
      have := congrArg String.data heq
      rw [key] at this
      simp at this
    rw [if_neg h1, if_neg h2, if_neg h3]

/-! ## Dropped-event helper -/

/-- Any two-field message whose category does not resolve in the points
table is a complete no-op for the datastore. -/
theorem process_noop_of_unrecognized (s : Store) (msg devId cat : String)
    (hsplit : pySplit msg ',' = [devId, cat])
    (hlook : lookupKey points_map (pyUpper cat) = none) :
    process_arduino_data s msg = s := by
  simp only [process_arduino_data, hsplit]
  cases hfind : findUserByDustbin s devId with
  | none => simp
  | some ud => simp [update_points, hlook]

theorem points_map_none_of_not_mem (k : String)
    (h : k ∉ (["DRY", "WET", "EWASTE"] : List String)) :
    lookupKey points_map k = none := by
  simp only [List.mem_cons, List.mem_singleton, not_or] at h
  obtain ⟨h1, h2, h3, -⟩ := h
  have g1 : ¬("DRY" = k) := fun hh => h1 hh.symm
  have g2 : ¬("WET" = k) := fun hh => h2 hh.symm
  have g3 : ¬("EWASTE" = k) := fun hh => h3 hh.symm
  simp only [points_map, lookupKey]
  rw [if_neg g1, if_neg g2, if_neg g3]

/-! ## Demonstration states used by the witnesses -/

/-- A datastore with one user linked to device `bin42`. -/
def demoStore : Store :=
  [("u1", { email := "a@x.com", linked_dustbin := some "bin42",
            points := [("dry", 1), ("wet", 2), ("ewaste", 0), ("total", 21)] })]

/-- A two-user datastore: `u1` linked to `bin42`, `u2` linked to `bin7`. -/
def demoStore2 : Store :=
  [("u1", { email := "a@x.com", linked_dustbin := some "bin42",
            points := [("dry", 1), ("wet", 2), ("ewaste", 0), ("total", 21)] }),
   ("u2", { email := "b@x.com", linked_dustbin := some "bin7",
            points := [("dry", 0), ("wet", 0), ("ewaste", 0), ("total", 0)] })]

/-- An identity-service state with a single account. -/
def demoAuth : AuthDB := [("u1", "a@x.com")]

/-! ## Claims -/

/-- C3: for every ingestion message whose category field, after uppercasing,
is not one of DRY, WET, EWASTE, attribution performs no state change at all:
the datastore is returned unmodified (so no counter and no total of any user
record changes), and the function is total (the `ValueError`/lookup faults
of the source are caught, never surfaced). -/
theorem process_unrecognized_category_noop (s : Store) (msg devId cat : String)
    (hsplit : pySplit msg ',' = [devId, cat])
    (hcat : pyUpper cat ∉ (["DRY", "WET", "EWASTE"] : List String)) :
    process_arduino_data s msg = s :=
  process_noop_of_unrecognized s msg devId cat hsplit (points_map_none_of_not_mem _ hcat)

theorem process_unrecognized_category_noop_witness :
    pySplit "bin42,PLASTIC" ',' = ["bin42", "PLASTIC"] ∧
    pyUpper "PLASTIC" ∉ (["DRY", "WET", "EWASTE"] : List String) ∧
    process_arduino_data demoStore "bin42,PLASTIC" = demoStore :=
  ⟨by decide, by decide,
    process_unrecognized_category_noop demoStore "bin42,PLASTIC" "bin42" "PLASTIC"
      (by decide) (by decide)⟩

/-- C10: attribution splits the raw message on commas and uses the fields
verbatim, without per-field trimming: a category field carrying leading
whitespace (e.g. the `" WET"` of `"bin42, WET"`) uppercases to a string that
still starts with the space, misses the points table, and the event is
dropped with no state change — even when the device id is validly linked. -/
theorem process_padded_category_dropped (s : Store) (msg devId cat : String)
    (hsplit : pySplit msg ',' = [devId, cat])
    (hws : cat.data.head? = some ' ') :
    process_arduino_data s msg = s :=
  process_noop_of_unrecognized s msg devId cat hsplit (points_map_head_space cat hws)

theorem process_padded_category_dropped_witness :
    pySplit "bin42, WET" ',' = ["bin42", " WET"] ∧
    " WET".data.head? = some ' ' ∧
    process_arduino_data demoStore "bin42, WET" = demoStore :=
  ⟨by decide, by decide,
    process_padded_category_dropped demoStore "bin42, WET" "bin42" " WET"
      (by decide) (by decide)⟩

/-- C8: the login operation never consults the password: its result is a
function of the email alone — identical for any two passwords — and equals
200 with the account uid when the email resolves in the identity service,
404 with no uid otherwise. -/
theorem login_ignores_password (authdb : AuthDB) (email p₁ p₂ : String) :
    login authdb email p₁ = login authdb email p₂ ∧
    login authdb email p₁ =
      (match get_user_by_email authdb email with
       | some uid => (200, some uid)
       | none => (404, none)) :=
  ⟨rfl, rfl⟩

/-- C9: deleting an account id unknown to the identity service returns 404
and performs no write anywhere: both the identity service and the datastore
are returned exactly as they were (the datastore delete is only reached
after the identity deletion succeeds). -/
theorem delete_user_unknown_noop (authdb : AuthDB) (s : Store) (uid : String)
    (h : lookupKey authdb uid = none) :
    delete_user authdb s uid = (404, authdb, s) := by
  simp [delete_user, h]

theorem delete_user_unknown_noop_witness :
    lookupKey demoAuth "ghost" = none ∧
    delete_user demoAuth demoStore "ghost" = (404, demoAuth, demoStore) :=
  ⟨by decide, delete_user_unknown_noop demoAuth demoStore "ghost" (by decide)⟩

/-- C1: every user record returned by get-user satisfies
`total == 5*dry + 8*wet + 10*ewaste`; when the stored total disagreed, the
recomputed total has been written back to the stored record before
returning, so the invariant holds in the datastore immediately after any
read, whatever point-award events preceded it. -/
theorem get_user_total_invariant (authdb : AuthDB) (s : Store) (uid : String)
    (st : Nat) (r : UserRecord) (s' : Store)
    (h : get_user authdb s uid = (st, some r, s')) :
    st = 200 ∧
    pget r.points "total" =
      5 * pget r.points "dry" + 8 * pget r.points "wet" + 10 * pget r.points "ewaste" ∧
    findDoc s' uid = some r := by
  cases hdoc : findDoc s uid with
  | some u =>
    simp only [get_user, hdoc] at h
    split at h
    · simp only [Prod.mk.injEq, Option.some.injEq] at h
      obtain ⟨hst, hr, hs⟩ := h
      subst hst
      subst hr
      subst hs
      refine ⟨rfl, ?_, ?_⟩
      · simp only [pget_pset_self,
          pget_pset_ne _ "total" "dry" _ (by decide),
          pget_pset_ne _ "total" "wet" _ (by decide),
          pget_pset_ne _ "total" "ewaste" _ (by decide)]
        ring
      · show lookupKey (updateKey s uid _) uid = _
        rw [lookupKey_updateKey_self]
        show (findDoc s uid).map _ = _
        rw [hdoc]
        rfl
    · rename_i heq
      rw [not_not] at heq
      simp only [Prod.mk.injEq, Option.some.injEq] at h
      obtain ⟨hst, hr, hs⟩ := h
      subst hst
      subst hr
      subst hs
      refine ⟨rfl, ?_, hdoc⟩
      rw [← heq]
      ring
  | none =>
    cases hauth : lookupKey authdb uid with
    | some em =>
      simp only [get_user, hdoc, hauth] at h
      simp only [Prod.mk.injEq, Option.some.injEq] at h
      obtain ⟨hst, hr, hs⟩ := h
      subst hst
      subst hr
      subst hs
      refine ⟨rfl, by simp [pget, defaultPoints, lookupKey], ?_⟩
      show lookupKey (s ++ [(uid, _)]) uid = _
      rw [lookupKey_append_of_none s _ uid hdoc]
      simp [lookupKey]
    | none =>
      simp only [get_user, hdoc, hauth] at h
      simp at h

theorem get_user_total_invariant_witness :
    get_user demoAuth
      [("u1", { email := "a@x.com", linked_dustbin := some "bin42",
                points := [("dry", 1), ("wet", 2), ("ewaste", 0), ("total", 3)] })] "u1" =
      (200, some { email := "a@x.com", linked_dustbin := some "bin42",
                   points := [("dry", 1), ("wet", 2), ("ewaste", 0), ("total", 21)] },
        [("u1", { email := "a@x.com", linked_dustbin := some "bin42",
                  points := [("dry", 1), ("wet", 2), ("ewaste", 0), ("total", 21)] })]) ∧
    (200 = 200 ∧
      pget [("dry", (1 : Int)), ("wet", 2), ("ewaste", 0), ("total", 21)] "total" =
        5 * pget [("dry", (1 : Int)), ("wet", 2), ("ewaste", 0), ("total", 21)] "dry" +
        8 * pget [("dry", (1 : Int)), ("wet", 2), ("ewaste", 0), ("total", 21)] "wet" +
        10 * pget [("dry", (1 : Int)), ("wet", 2), ("ewaste", 0), ("total", 21)] "ewaste" ∧
      findDoc [("u1", { email := "a@x.com", linked_dustbin := some "bin42",
                        points := [("dry", 1), ("wet", 2), ("ewaste", 0), ("total", 21)] })] "u1" =
        some { email := "a@x.com", linked_dustbin := some "bin42",
               points := [("dry", 1), ("wet", 2), ("ewaste", 0), ("total", 21)] }) :=
  ⟨by decide,
    get_user_total_invariant demoAuth
      [("u1", { email := "a@x.com", linked_dustbin := some "bin42",
                points := [("dry", 1), ("wet", 2), ("ewaste", 0), ("total", 3)] })] "u1"
      200
      { email := "a@x.com", linked_dustbin := some "bin42",
        points := [("dry", 1), ("wet", 2), ("ewaste", 0), ("total", 21)] }
      [("u1", { email := "a@x.com", linked_dustbin := some "bin42",
                points := [("dry", 1), ("wet", 2), ("ewaste", 0), ("total", 21)] })]
      (by decide)⟩

/-- The Device Link Registry invariant of the data model: a device id is
linked to at most one account (record key) across the datastore. -/
def DeviceUnique (s : Store) : Prop :=
  ∀ p ∈ s, ∀ q ∈ s, p.2.linked_dustbin ≠ none →
    p.2.linked_dustbin = q.2.linked_dustbin → p.1 = q.1

instance (s : Store) : Decidable (DeviceUnique s) := by
  unfold DeviceUnique
  infer_instance

/-- C4: a link-device request for a device id already linked to a different
account returns 409 Conflict and performs no write: the datastore — hence
both the requesting account's and the other account's `linked_dustbin`
field — is exactly as before. -/
theorem link_dustbin_conflict (s : Store) (uid devId u : String) (r : UserRecord)
    (huid : uid ≠ "") (hdev : devId ≠ "")
    (hmem : (u, r) ∈ s) (hne : u ≠ uid) (hlink : r.linked_dustbin = some devId)
    (huniq : DeviceUnique s) :
    link_dustbin s uid devId = (409, s) := by
  have hsome : (findUserByDustbin s devId).isSome := by
    rw [findUserByDustbin, List.find?_isSome]
    exact ⟨(u, r), hmem, by simp [hlink]⟩
  obtain ⟨⟨lid, rr⟩, hfd⟩ := Option.isSome_iff_exists.mp hsome
  have hprr : rr.linked_dustbin = some devId := by simpa using List.find?_some hfd
  have hmm : (lid, rr) ∈ s := List.mem_of_find?_eq_some hfd
  have hl : lid = u :=
    huniq (lid, rr) hmm (u, r) hmem (by simp [hprr]) (by rw [hprr, hlink])
  have hlne : lid ≠ uid := hl ▸ hne
  simp only [link_dustbin]
  rw [if_neg (fun hor => hor.elim huid hdev), hfd]
  simp [hlne]

theorem link_dustbin_conflict_witness :
    ("u2" : String) ≠ "" ∧ ("bin42" : String) ≠ "" ∧
    ("u1", { email := "a@x.com", linked_dustbin := some "bin42",
             points := [("dry", 1), ("wet", 2), ("ewaste", 0), ("total", 21)] }) ∈ demoStore2 ∧
    ("u1" : String) ≠ "u2" ∧
    DeviceUnique demoStore2 ∧
    link_dustbin demoStore2 "u2" "bin42" = (409, demoStore2) :=
  ⟨by decide, by decide, by decide, by decide, by decide,
    link_dustbin_conflict demoStore2 "u2" "bin42" "u1"
      { email := "a@x.com", linked_dustbin := some "bin42",
        points := [("dry", 1), ("wet", 2), ("ewaste", 0), ("total", 21)] }
      (by decide) (by decide) (by decide) (by decide) (by decide) (by decide)⟩

/-- C5: a link-device request by the very account that already holds the
link succeeds with 200 and is a no-op on the datastore, and applying the
same request twice yields the same final state as applying it once. -/
theorem link_dustbin_same_user_noop (s : Store) (uid devId : String) (r : UserRecord)
    (huid : uid ≠ "") (hdev : devId ≠ "")
    (hfind : findDoc s uid = some r) (hlink : r.linked_dustbin = some devId)
    (huniq : DeviceUnique s) :
    link_dustbin s uid devId = (200, s) ∧
    link_dustbin (link_dustbin s uid devId).2 uid devId = link_dustbin s uid devId := by
  have hmem : (uid, r) ∈ s := mem_of_lookupKey s uid r hfind
  have hsome : (findUserByDustbin s devId).isSome := by
    rw [findUserByDustbin, List.find?_isSome]
    exact ⟨(uid, r), hmem, by simp [hlink]⟩
  obtain ⟨⟨lid, rr⟩, hfd⟩ := Option.isSome_iff_exists.mp hsome
  have hprr : rr.linked_dustbin = some devId := by simpa using List.find?_some hfd
  have hmm : (lid, rr) ∈ s := List.mem_of_find?_eq_some hfd
  have hl : lid = uid :=
    huniq (lid, rr) hmm (uid, r) hmem (by simp [hprr]) (by rw [hprr, hlink])
  have hfr : ({ r with linked_dustbin := some devId } : UserRecord) = r := by
    rw [← hlink]
  have hupd : updateKey s uid (fun q => { q with linked_dustbin := some devId }) = s :=
    updateKey_eq_self s uid _ r hfind hfr
  have hone : link_dustbin s uid devId = (200, s) := by
    simp only [link_dustbin]
    rw [if_neg (fun hor => hor.elim huid hdev), hfd]
    simp only [hl, ne_eq, not_true_eq_false, if_false, ite_false, if_neg (not_not.mpr rfl)]
    simp only [tryUpdateDoc, hfind, hupd]
  refine ⟨hone, ?_⟩
  rw [hone]
  exact hone

theorem link_dustbin_same_user_noop_witness :
    ("u1" : String) ≠ "" ∧ ("bin42" : String) ≠ "" ∧
    findDoc demoStore "u1" =
      some { email := "a@x.com", linked_dustbin := some "bin42",
             points := [("dry", 1), ("wet", 2), ("ewaste", 0), ("total", 21)] } ∧
    DeviceUnique demoStore ∧
    (link_dustbin demoStore "u1" "bin42" = (200, demoStore) ∧
      link_dustbin (link_dustbin demoStore "u1" "bin42").2 "u1" "bin42" =
        link_dustbin demoStore "u1" "bin42") :=
  ⟨by decide, by decide, by decide, by decide,
    link_dustbin_same_user_noop demoStore "u1" "bin42"
      { email := "a@x.com", linked_dustbin := some "bin42",
        points := [("dry", 1), ("wet", 2), ("ewaste", 0), ("total", 21)] }
      (by decide) (by decide) (by decide) (by decide) (by decide)⟩

/-- C6: unlink unconditionally clears the link of an existing account and
succeeds with 200; when the link is already null the state is unchanged;
and unlink composed with itself equals unlink (the second application
returns the same 200 and the same state). -/
theorem unlink_dustbin_idempotent (s : Store) (uid : String) (r : UserRecord)
    (huid : uid ≠ "") (hfind : findDoc s uid = some r) :
    ∃ s', unlink_dustbin s uid = (200, s') ∧
      findDoc s' uid = some { r with linked_dustbin := none } ∧
      (r.linked_dustbin = none → s' = s) ∧
      unlink_dustbin s' uid = (200, s') := by
  refine ⟨updateKey s uid (fun q => { q with linked_dustbin := none }), ?_, ?_, ?_, ?_⟩
  · simp only [unlink_dustbin]
    rw [if_neg huid]
    simp only [tryUpdateDoc, hfind]
  · show lookupKey (updateKey s uid _) uid = _
    rw [lookupKey_updateKey_self]
    show (findDoc s uid).map _ = _
    rw [hfind]
    rfl
  · intro hnone
    exact updateKey_eq_self s uid _ r hfind (by rw [← hnone])
  · have hfind2 : findDoc (updateKey s uid (fun q => { q with linked_dustbin := none })) uid =
        some { r with linked_dustbin := none } := by
      show lookupKey (updateKey s uid _) uid = _
      rw [lookupKey_updateKey_self]
      show (findDoc s uid).map _ = _
      rw [hfind]
      rfl
    simp only [unlink_dustbin]
    rw [if_neg huid]
    simp only [tryUpdateDoc, hfind2]
    rw [updateKey_eq_self _ uid _ _ hfind2 rfl]

theorem unlink_dustbin_idempotent_witness :
    ("u1" : String) ≠ "" ∧
    findDoc demoStore "u1" =
      some { email := "a@x.com", linked_dustbin := some "bin42",
             points := [("dry", 1), ("wet", 2), ("ewaste", 0), ("total", 21)] } ∧
    (∃ s', unlink_dustbin demoStore "u1" = (200, s') ∧
      findDoc s' "u1" =
        some { email := "a@x.com", linked_dustbin := none,
               points := [("dry", 1), ("wet", 2), ("ewaste", 0), ("total", 21)] } ∧
      (({ email := "a@x.com", linked_dustbin := some "bin42",
          points := [("dry", 1), ("wet", 2), ("ewaste", 0), ("total", 21)] } :
            UserRecord).linked_dustbin = none → s' = demoStore) ∧
      unlink_dustbin s' "u1" = (200, s')) :=
  ⟨by decide, by decide,
    unlink_dustbin_idempotent demoStore "u1"
      { email := "a@x.com", linked_dustbin := some "bin42",
        points := [("dry", 1), ("wet", 2), ("ewaste", 0), ("total", 21)] }
      (by decide) (by decide)⟩

/-! ## Sortedness of the leaderboard -/

theorem mem_insertSorted {α : Type} (le : α → α → Bool) (a x : α) :
    ∀ l : List α, (x ∈ insertSorted le a l ↔ x = a ∨ x ∈ l)
  | [] => by simp [insertSorted]
  | b :: t => by
    by_cases h : le a b
    · simp [insertSorted, h, List.mem_cons]
    · simp only [insertSorted, if_neg h, List.mem_cons, mem_insertSorted le a x t]
      tauto

theorem pairwise_insertSorted {α : Type} (le : α → α → Bool)
    (total : ∀ a b, (le a b || le b a) = true)
    (trans : ∀ a b c, le a b = true → le b c = true → le a c = true)
    (a : α) : ∀ l : List α, l.Pairwise (fun x y => le x y = true) →
      (insertSorted le a l).Pairwise (fun x y => le x y = true)
  | [], _ => by simp [insertSorted]
  | b :: t, hl => by
    rw [List.pairwise_cons] at hl
    obtain ⟨hb, ht⟩ := hl
    by_cases h : le a b
    · simp only [insertSorted, if_pos h, List.pairwise_cons, List.mem_cons]
      refine ⟨?_, hb, ht⟩
      rintro y (rfl | hy)
      · exact h
      · exact trans a b y h (hb y hy)
    · have hba : le b a = true := by
        have := total a b
        rw [Bool.or_eq_true] at this
        rcases this with h' | h'
        · exact absurd h' h
        · exact h'
      simp only [insertSorted, if_neg h, List.pairwise_cons]
      refine ⟨?_, pairwise_insertSorted le total trans a t ht⟩
      intro y hy
      rcases (mem_insertSorted le a y t).mp hy with rfl | hy'
      · exact hba
      · exact hb y hy'

theorem pairwise_sortBySorted {α : Type} (le : α → α → Bool)
    (total : ∀ a b, (le a b || le b a) = true)
    (trans : ∀ a b c, le a b = true → le b c = true → le a c = true) :
    ∀ l : List α, (sortBySorted le l).Pairwise (fun x y => le x y = true)
  | [] => by simp [sortBySorted]
  | a :: t =>
    pairwise_insertSorted le total trans a _ (pairwise_sortBySorted le total trans t)

theorem mem_sortBySorted {α : Type} (le : α → α → Bool) (x : α) :
    ∀ l : List α, x ∈ sortBySorted le l ↔ x ∈ l
  | [] => by simp [sortBySorted]
  | a :: t => by
    simp only [sortBySorted, mem_insertSorted le a x (sortBySorted le t),
      mem_sortBySorted le x t, List.mem_cons]

/-- A two-user datastore whose users have equal totals. -/
def demoTie : Store :=
  [("u1", { email := "a@x", linked_dustbin := none, points := [("total", 10)] }),
   ("u2", { email := "b@x", linked_dustbin := none, points := [("total", 10)] })]

/-- C7 counterexample: on a datastore with two users of equal total, the
leaderboard output is not ordered by strictly descending total — it carries
two adjacent entries with the same total. -/
theorem leaderboard_ties_not_strict :
    leaderboard demoTie = [("a@x", 10), ("b@x", 10)] ∧
    ¬ (leaderboard demoTie).Chain' (fun a b => b.2 < a.2) := by
  constructor
  · decide
  · intro h
    rw [show leaderboard demoTie = [("a@x", 10), ("b@x", 10)] from by decide] at h
    rw [List.chain'_cons] at h
    exact absurd h.1 (by decide)

/-- C7 (amended): the leaderboard has at most 10 entries, is ordered by
non-increasing (descending, ties adjacent) total, and every entry is the
projection of a stored user record to exactly its email and total. -/
theorem leaderboard_top10_sorted (s : Store) :
    (leaderboard s).length ≤ 10 ∧
    (leaderboard s).Chain' (fun a b => b.2 ≤ a.2) ∧
    ∀ e ∈ leaderboard s, ∃ p ∈ s, e = (p.2.email, pget p.2.points "total") := by
  have htotal : ∀ a b : String × UserRecord, (lbLE a b || lbLE b a) = true := by
    intro a b
    simp only [lbLE, Bool.or_eq_true, decide_eq_true_eq]
    exact Int.le_total _ _
  have htrans : ∀ a b c : String × UserRecord,
      lbLE a b = true → lbLE b c = true → lbLE a c = true := by
    intro a b c hab hbc
    simp only [lbLE, decide_eq_true_eq] at hab hbc ⊢
    exact le_trans hbc hab
  refine ⟨?_, ?_, ?_⟩
  · simp only [leaderboard, List.length_map]
    exact List.length_take_le 10 _
  · have hp := pairwise_sortBySorted lbLE htotal htrans s
    have hp2 := hp.sublist (List.take_sublist 10 _)
    have hp3 : ((sortBySorted lbLE s).take 10).Pairwise
        (fun x y => pget y.2.points "total" ≤ pget x.2.points "total") := by
      refine hp2.imp ?_
      intro x y hxy
      simpa [lbLE, decide_eq_true_eq] using hxy
    refine List.Pairwise.chain' ?_
    rw [leaderboard, List.pairwise_map]
    exact hp3
  · intro e he
    simp only [leaderboard, List.mem_map] at he
    obtain ⟨p, hp, rfl⟩ := he
    have hmem : p ∈ sortBySorted lbLE s := (List.take_subset 10 _) hp
    exact ⟨p, (mem_sortBySorted lbLE p s).mp hmem, rfl⟩

/-! ## Attribution of a recognized classification event -/

theorem update_points_effect (s : Store) (uid cat : String) (r : UserRecord)
    (hdoc : findDoc s uid = some r)
    (pts : Int) (hpts : lookupKey points_map (pyUpper cat) = some pts) (hpts0 : pts ≠ 0) :
    findDoc (update_points s uid cat) uid =
      some { r with points := pinc (pinc r.points (pyLower cat) 1) "total" pts } := by
  have h1 : update_points s uid cat =
      updateKey s uid
        (fun q => { q with points := pinc (pinc q.points (pyLower cat) 1) "total" pts }) := by
    simp only [update_points, hpts, Option.getD_some]
    rw [if_neg hpts0]
    simp only [tryUpdateDoc, hdoc]
  rw [h1]
  show lookupKey (updateKey s uid _) uid = _
  rw [lookupKey_updateKey_self]
  show (findDoc s uid).map _ = _
  rw [hdoc]
  rfl

/-- C2: a well-formed message `"<deviceId>,<CATEGORY>"` whose uppercased
category is DRY, WET or EWASTE, arriving while exactly one user record is
linked to the device, increments that user's counter for the category by
exactly 1 and the total by the table value (DRY: 5, WET: 8, EWASTE: 10),
leaving the other counters and fields untouched. -/
theorem process_awards_points (s : Store) (msg devId cat uid : String) (r : UserRecord)
    (hsplit : pySplit msg ',' = [devId, cat])
    (hcat : pyUpper cat = "DRY" ∨ pyUpper cat = "WET" ∨ pyUpper cat = "EWASTE")
    (hmem : (uid, r) ∈ s)
    (hlink : r.linked_dustbin = some devId)
    (huniq : ∀ p ∈ s, p.2.linked_dustbin = some devId → p = (uid, r))
    (hnd : (s.map Prod.fst).Nodup) :
    ∃ r', findDoc (process_arduino_data s msg) uid = some r' ∧
      r'.email = r.email ∧ r'.linked_dustbin = r.linked_dustbin ∧
      ((pyUpper cat = "DRY" ∧ pyLower cat = "dry" ∧
        pget r'.points "dry" = pget r.points "dry" + 1 ∧
        pget r'.points "total" = pget r.points "total" + 5 ∧
        pget r'.points "wet" = pget r.points "wet" ∧
        pget r'.points "ewaste" = pget r.points "ewaste") ∨
       (pyUpper cat = "WET" ∧ pyLower cat = "wet" ∧
        pget r'.points "wet" = pget r.points "wet" + 1 ∧
        pget r'.points "total" = pget r.points "total" + 8 ∧
        pget r'.points "dry" = pget r.points "dry" ∧
        pget r'.points "ewaste" = pget r.points "ewaste") ∨
       (pyUpper cat = "EWASTE" ∧ pyLower cat = "ewaste" ∧
        pget r'.points "ewaste" = pget r.points "ewaste" + 1 ∧
        pget r'.points "total" = pget r.points "total" + 10 ∧
        pget r'.points "dry" = pget r.points "dry" ∧
        pget r'.points "wet" = pget r.points "wet")) := by
  have hfd : findUserByDustbin s devId = some (uid, r) := by
    apply find?_eq_of_unique s _ (uid, r) hmem (by simp [hlink])
    intro y hy hpy
    exact huniq y hy (by simpa using hpy)
  have hdoc : findDoc s uid = some r := lookupKey_of_mem_nodup s uid r hmem hnd
  rcases hcat with hc | hc | hc
  · have hlow : pyLower cat = "dry" := by
      rw [pyLower_of_pyUpper cat "DRY" hc (by decide)]
      decide
    have heff := update_points_effect s uid cat r hdoc 5 (by rw [hc]; decide) (by decide)
    rw [hlow] at heff
    refine ⟨{ r with points := pinc (pinc r.points "dry" 1) "total" 5 }, ?_, rfl, rfl,
      Or.inl ⟨hc, hlow, ?_, ?_, ?_, ?_⟩⟩
    · simp only [process_arduino_data, hsplit, hfd]
      exact heff
    · show pget (pinc (pinc r.points "dry" 1) "total" 5) "dry" = _
      rw [pget_pinc_ne _ "total" "dry" _ (by decide), pget_pinc_self]
    · show pget (pinc (pinc r.points "dry" 1) "total" 5) "total" = _
      rw [pget_pinc_self, pget_pinc_ne _ "dry" "total" _ (by decide)]
    · show pget (pinc (pinc r.points "dry" 1) "total" 5) "wet" = _
      rw [pget_pinc_ne _ "total" "wet" _ (by decide), pget_pinc_ne _ "dry" "wet" _ (by decide)]
    · show pget (pinc (pinc r.points "dry" 1) "total" 5) "ewaste" = _
      rw [pget_pinc_ne _ "total" "ewaste" _ (by decide),
        pget_pinc_ne _ "dry" "ewaste" _ (by decide)]
  · have hlow : pyLower cat = "wet" := by
      rw [pyLower_of_pyUpper cat "WET" hc (by decide)]
      decide
    have heff := update_points_effect s uid cat r hdoc 8 (by rw [hc]; decide) (by decide)
    rw [hlow] at heff
    refine ⟨{ r with points := pinc (pinc r.points "wet" 1) "total" 8 }, ?_, rfl, rfl,
      Or.inr (Or.inl ⟨hc, hlow, ?_, ?_, ?_, ?_⟩)⟩
    · simp only [process_arduino_data, hsplit, hfd]
      exact heff
    · show pget (pinc (pinc r.points "wet" 1) "total" 8) "wet" = _
      rw [pget_pinc_ne _ "total" "wet" _ (by decide), pget_pinc_self]
    · show pget (pinc (pinc r.points "wet" 1) "total" 8) "total" = _
      rw [pget_pinc_self, pget_pinc_ne _ "wet" "total" _ (by decide)]
    · show pget (pinc (pinc r.points "wet" 1) "total" 8) "dry" = _
      rw [pget_pinc_ne _ "total" "dry" _ (by decide), pget_pinc_ne _ "wet" "dry" _ (by decide)]
    · show pget (pinc (pinc r.points "wet" 1) "total" 8) "ewaste" = _
      rw [pget_pinc_ne _ "total" "ewaste" _ (by decide),
        pget_pinc_ne _ "wet" "ewaste" _ (by decide)]
  · have hlow : pyLower cat = "ewaste" := by
      rw [pyLower_of_pyUpper cat "EWASTE" hc (by decide)]
      decide
    have heff := update_points_effect s uid cat r hdoc 10 (by rw [hc]; decide) (by decide)
    rw [hlow] at heff
    refine ⟨{ r with points := pinc (pinc r.points "ewaste" 1) "total" 10 }, ?_, rfl, rfl,
      Or.inr (Or.inr ⟨hc, hlow, ?_, ?_, ?_, ?_⟩)⟩
    · simp only [process_arduino_data, hsplit, hfd]
      exact heff
    · show pget (pinc (pinc r.points "ewaste" 1) "total" 10) "ewaste" = _
      rw [pget_pinc_ne _ "total" "ewaste" _ (by decide), pget_pinc_self]
    · show pget (pinc (pinc r.points "ewaste" 1) "total" 10) "total" = _
      rw [pget_pinc_self, pget_pinc_ne _ "ewaste" "total" _ (by decide)]
    · show pget (pinc (pinc r.points "ewaste" 1) "total" 10) "dry" = _
      rw [pget_pinc_ne _ "total" "dry" _ (by decide),
        pget_pinc_ne _ "ewaste" "dry" _ (by decide)]
    · show pget (pinc (pinc r.points "ewaste" 1) "total" 10) "wet" = _
      rw [pget_pinc_ne _ "total" "wet" _ (by decide),
        pget_pinc_ne _ "ewaste" "wet" _ (by decide)]

theorem process_awards_points_witness :
    pySplit "bin42,WET" ',' = ["bin42", "WET"] ∧
    (pyUpper "WET" = "DRY" ∨ pyUpper "WET" = "WET" ∨ pyUpper "WET" = "EWASTE") ∧
    ("u1", { email := "a@x.com", linked_dustbin := some "bin42",
             points := [("dry", 1), ("wet", 2), ("ewaste", 0), ("total", 21)] }) ∈ demoStore ∧
    ({ email := "a@x.com", linked_dustbin := some "bin42",
       points := [("dry", 1), ("wet", 2), ("ewaste", 0), ("total", 21)] } :
        UserRecord).linked_dustbin = some "bin42" ∧
    (∃ r', findDoc (process_arduino_data demoStore "bin42,WET") "u1" = some r' ∧
      r'.email = "a@x.com" ∧ r'.linked_dustbin = some "bin42" ∧
      ((pyUpper "WET" = "DRY" ∧ pyLower "WET" = "dry" ∧
        pget r'.points "dry" = pget [("dry", (1 : Int)), ("wet", 2), ("ewaste", 0), ("total", 21)] "dry" + 1 ∧
        pget r'.points "total" = pget [("dry", (1 : Int)), ("wet", 2), ("ewaste", 0), ("total", 21)] "total" + 5 ∧
        pget r'.points "wet" = pget [("dry", (1 : Int)), ("wet", 2), ("ewaste", 0), ("total", 21)] "wet" ∧
        pget r'.points "ewaste" = pget [("dry", (1 : Int)), ("wet", 2), ("ewaste", 0), ("total", 21)] "ewaste") ∨
       (pyUpper "WET" = "WET" ∧ pyLower "WET" = "wet" ∧
        pget r'.points "wet" = pget [("dry", (1 : Int)), ("wet", 2), ("ewaste", 0), ("total", 21)] "wet" + 1 ∧
        pget r'.points "total" = pget [("dry", (1 : Int)), ("wet", 2), ("ewaste", 0), ("total", 21)] "total" + 8 ∧
        pget r'.points "dry" = pget [("dry", (1 : Int)), ("wet", 2), ("ewaste", 0), ("total", 21)] "dry" ∧
        pget r'.points "ewaste" = pget [("dry", (1 : Int)), ("wet", 2), ("ewaste", 0), ("total", 21)] "ewaste") ∨
       (pyUpper "WET" = "EWASTE" ∧ pyLower "WET" = "ewaste" ∧
        pget r'.points "ewaste" = pget [("dry", (1 : Int)), ("wet", 2), ("ewaste", 0), ("total", 21)] "ewaste" + 1 ∧
        pget r'.points "total" = pget [("dry", (1 : Int)), ("wet", 2), ("ewaste", 0), ("total", 21)] "total" + 10 ∧
        pget r'.points "dry" = pget [("dry", (1 : Int)), ("wet", 2), ("ewaste", 0), ("total", 21)] "dry" ∧
        pget r'.points "wet" = pget [("dry", (1 : Int)), ("wet", 2), ("ewaste", 0), ("total", 21)] "wet"))) :=
  ⟨by decide, by decide, by decide, by decide,
    process_awards_points demoStore "bin42,WET" "bin42" "WET" "u1"
      { email := "a@x.com", linked_dustbin := some "bin42",
        points := [("dry", 1), ("wet", 2), ("ewaste", 0), ("total", 21)] }
      (by decide) (by decide) (by decide) (by decide) (by decide) (by decide)⟩

end SmartDustbin
